import Mathlib

/-!
Verification of the `libcpp-gc` garbage collector (`GarbageCollector.h`)
against its natural-language specification.

The registry `_pointers` is a `std::list<std::shared_ptr<void>>`.  We model
each registry slot as an `Entry` carrying the identity of the shared-ownership
group created for it (`oid`), the underlying raw object (`raw`), and the number
of owners outside the registry (`ext`).  The `shared_ptr` use count of the
slot is `ext + 1` (the registry's own reference plus the external ones), so
`iterator->unique()` holds exactly when `ext = 0`.

`GarbageCollector::collect` is the loop

    for (auto iterator = _pointers.begin(); iterator != _pointers.end();) {
        if (iterator->unique()) {
            *iterator = nullptr;            // release: destroys the object
            iterator = _pointers.erase(iterator);
        }
    }

Note the loop has no `else ++iterator`: when the current entry is not unique
the iterator is not advanced and the same entry is re-tested forever.  We
embed the loop as a fuel-indexed step function `collectD` (fuel counts loop
iterations; the first component is the trace of destroyed entries in order of
release, the second is `some finalRegistry` when the loop exited and `none`
when the fuel ran out), together with its limit `collectRun` (`none` exactly
when the loop diverges for every amount of fuel; the agreement lemmas below
relate the two).
-/

/-- A registry slot: `oid` identifies the shared-ownership group created for
it by `alloc`, `raw` identifies the underlying raw object, and `ext` counts
the owners outside the registry, so the use count is `ext + 1` and
`shared_ptr::unique()` holds iff `ext = 0`. -/
structure Entry where
  oid : Nat
  raw : Nat
  ext : Nat
deriving DecidableEq, Repr

/-- One run of the `collect` loop, with `fuel` bounding the number of loop
iterations.  Faithful to the source: a unique entry is released (recorded in
the destruction trace, first component) and erased, the iterator moving to the
next entry; a non-unique entry is re-tested with the iterator unmoved.  The
second component is `some` the final registry when the loop reached
`_pointers.end()`, and `none` when the fuel was exhausted first. -/
def collectD : Nat → List Entry → List Entry × Option (List Entry)
  | 0, _ => ([], none)
  | _ + 1, [] => ([], some [])
  | n + 1, e :: rest =>
    if e.ext = 0 then
      ((e :: (collectD n rest).1), (collectD n rest).2)
    else
      collectD n (e :: rest)

/-- The limit of `collectD`: the result of the `collect` loop when it
terminates, `none` when it diverges (no amount of fuel completes it). -/
def collectRun : List Entry → Option (List Entry)
  | [] => some []
  | e :: rest => if e.ext = 0 then collectRun rest else none

/-!
The background sweep loop of `GarbageCollector::runtime`:

    while (true) {
        auto lock = std::unique_lock<std::mutex>(_cvMutex);
        auto isNotTimeout = _cv.wait_for(lock, gcInterval, [&]{ return gcStopSignal; });
        getInstance()->collect();
        if (isNotTimeout) break;
    }

Each iteration waits (for the interval or the stop signal), observes the
stop flag (`isNotTimeout` is the predicate's value, i.e. `gcStopSignal` as
seen at the end of the wait), performs one `collect`, and exits iff the flag
was observed.  We model an execution by `obs i` (whether iteration `i`'s
wait observed the stop signal as set) and `news i` (the entries `alloc`ed by
the work thread since the previous sweep and visible to iteration `i`'s
sweep).  `gcLoop` returns `none` when the iteration fuel runs out or a sweep
diverges, else `some (trace, finalRegistry)` where the trace records, per
completed iteration, the observed stop flag and the registry left by that
iteration's completed sweep.
-/

/-- The background sweep loop, fuel-indexed over loop iterations. -/
def gcLoop : Nat → (Nat → Bool) → (Nat → List Entry) → List Entry →
    Option (List (Bool × List Entry) × List Entry)
  | 0, _, _, _ => none
  | n + 1, obs, news, reg =>
    match collectRun (reg ++ news 0) with
    | none => none
    | some r2 =>
      if obs 0 then some ([(true, r2)], r2)
      else
        match gcLoop n (fun i => obs (i + 1)) (fun i => news (i + 1)) r2 with
        | none => none
        | some (tr, rf) => some ((false, r2) :: tr, rf)

/-- `GarbageCollector::runtime`: runs the work (whose result is `code` and
whose allocations feed the loop through `news`), signals stop, joins the
sweep thread (so `runtime` returns only if `gcLoop` exits), and returns the
work's code together with the final registry. -/
def runtimeFull (code : Int) (obs : Nat → Bool) (news : Nat → List Entry)
    (reg : List Entry) (n : Nat) : Option (Int × List Entry) :=
  (gcLoop n obs news reg).map (fun p => (code, p.2))

/-- The allocation state: the registry plus the next fresh group id
(`std::shared_ptr` construction always creates a fresh ownership group). -/
structure AllocState where
  reg : List Entry
  next : Nat
deriving DecidableEq, Repr

/-- `GarbageCollector::alloc`: wraps the raw object `p` in a fresh
shared-ownership group, appends the handle to the registry under the lock,
and returns the handle (identified by its group id) to the caller; the
caller then holds the one external owner (`ext = 1`), the registry its own
reference. -/
def alloc (s : AllocState) (p : Nat) : Nat × AllocState :=
  (s.next, ⟨s.reg ++ [⟨s.next, p, 1⟩], s.next + 1⟩)

/-- The singleton state of `GarbageCollector::getInstance`: the instance (if
already constructed, identified by a Nat) and the number of constructor runs
so far. -/
structure SingState where
  inst : Option Nat
  ctors : Nat
deriving DecidableEq, Repr

/-- `GarbageCollector::getInstance`: double-checked lazy construction — if an
instance exists it is returned unchanged; otherwise a fresh instance is
constructed (identified by the constructor-run count) and stored. -/
def getInstance (s : SingState) : Nat × SingState :=
  match s.inst with
  | some g => (g, s)
  | none => (s.ctors, ⟨some s.ctors, s.ctors + 1⟩)

/-- `n` successive calls to `getInstance`, returning the list of returned
instances and the final state. -/
def getInstanceN : Nat → SingState → List Nat × SingState
  | 0, s => ([], s)
  | n + 1, s =>
    ((getInstance s).1 :: (getInstanceN n (getInstance s).2).1,
     (getInstanceN n (getInstance s).2).2)

/-- If the `collect` loop sits on a non-unique entry, it never terminates:
the iterator is never advanced, so every amount of fuel is exhausted. -/
theorem collectD_stuck (n : Nat) (e : Entry) (rest : List Entry)
    (h : ¬ e.ext = 0) : (collectD n (e :: rest)).2 = none := by
  induction n with
  | zero => rfl
  | succ k ih =>
    show (collectD (k + 1) (e :: rest)).2 = none
    rw [collectD, if_neg h]
    exact ih

/-- When the `collect` loop terminates, it has erased every entry: the final
registry is empty. -/
theorem collectD_some_nil (n : Nat) (reg rf : List Entry)
    (h : (collectD n reg).2 = some rf) : rf = [] := by
  induction n generalizing reg with
  | zero => simp [collectD] at h
  | succ k ih =>
    cases reg with
    | nil =>
      simp [collectD] at h
      exact h
    | cons e rest =>
      by_cases he : e.ext = 0
      · rw [collectD, if_pos he] at h
        exact ih rest h
      · rw [collectD, if_neg he] at h
        rw [collectD_stuck k e rest he] at h
        exact absurd h (by simp)

/-- When the `collect` loop terminates, every entry it scanned was unique. -/
theorem collectD_some_all_unique (n : Nat) (reg rf : List Entry)
    (h : (collectD n reg).2 = some rf) : ∀ e ∈ reg, e.ext = 0 := by
  induction n generalizing reg with
  | zero => simp [collectD] at h
  | succ k ih =>
    cases reg with
    | nil => intro e he; simp at he
    | cons e rest =>
      by_cases he : e.ext = 0
      · rw [collectD, if_pos he] at h
        intro x hx
        rcases List.mem_cons.mp hx with hx | hx
        · rw [hx]; exact he
        · exact ih rest h x hx
      · rw [collectD, if_neg he] at h
        rw [collectD_stuck k e rest he] at h
        exact absurd h (by simp)

/-- `collectRun` agrees with `collectD`: a terminating fuel run yields the
limit's value. -/
theorem collectRun_of_collectD (n : Nat) (reg rf : List Entry)
    (h : (collectD n reg).2 = some rf) : collectRun reg = some rf := by
  induction n generalizing reg with
  | zero => simp [collectD] at h
  | succ k ih =>
    cases reg with
    | nil =>
      simp [collectD] at h
      rw [collectRun, h]
    | cons e rest =>
      by_cases he : e.ext = 0
      · rw [collectD, if_pos he] at h
        rw [collectRun, if_pos he]
        exact ih rest h
      · rw [collectD, if_neg he] at h
        rw [collectD_stuck k e rest he] at h
        exact absurd h (by simp)

/-- `collectRun` agrees with `collectD`: when the limit is `none`, no amount
of fuel makes the loop terminate. -/
theorem collectD_none_of_collectRun (reg : List Entry)
    (h : collectRun reg = none) (n : Nat) : (collectD n reg).2 = none := by
  induction n generalizing reg with
  | zero => rfl
  | succ k ih =>
    cases reg with
    | nil => rw [collectRun] at h; exact absurd h (by simp)
    | cons e rest =>
      by_cases he : e.ext = 0
      · rw [collectRun, if_pos he] at h
        rw [collectD, if_pos he]
        exact ih rest h
      · exact collectD_stuck (k + 1) e rest he

/-- A terminating `collectRun` always returns the empty registry. -/
theorem collectRun_some_nil (reg rf : List Entry)
    (h : collectRun reg = some rf) : rf = [] := by
  induction reg with
  | nil => rw [collectRun] at h; exact (Option.some_inj.mp h).symm
  | cons e rest ih =>
    by_cases he : e.ext = 0
    · rw [collectRun, if_pos he] at h
      exact ih h
    · rw [collectRun, if_neg he] at h
      exact absurd h (by simp)

/-- When the sweep loop exits, its final registry is the registry left by a
completed sweep; since completed sweeps leave the registry empty, so is it. -/
theorem gcLoop_final_nil (n : Nat) (obs : Nat → Bool) (news : Nat → List Entry)
    (reg : List Entry) (tr : List (Bool × List Entry)) (rf : List Entry)
    (h : gcLoop n obs news reg = some (tr, rf)) : rf = [] := by
  induction n generalizing obs news reg tr with
  | zero => exact absurd h (by simp [gcLoop])
  | succ k ih =>
    rw [gcLoop] at h
    split at h
    · exact absurd h (by simp)
    · rename_i r2 hc
      split at h
      · simp at h
        rw [← h.2]
        exact collectRun_some_nil _ r2 hc
      · split at h
        · exact absurd h (by simp)
        · rename_i tr2 rf2 hg
          simp at h
          rw [h.2] at hg
          exact ih _ _ _ _ hg

/-- When the sweep loop exits, the last iteration of its trace observed the
stop signal and its completed sweep produced the final registry. -/
theorem gcLoop_last_stop (n : Nat) (obs : Nat → Bool) (news : Nat → List Entry)
    (reg : List Entry) (tr : List (Bool × List Entry)) (rf : List Entry)
    (h : gcLoop n obs news reg = some (tr, rf)) :
    tr.getLast? = some (true, rf) := by
  induction n generalizing obs news reg tr with
  | zero => exact absurd h (by simp [gcLoop])
  | succ k ih =>
    rw [gcLoop] at h
    split at h
    · exact absurd h (by simp)
    · rename_i r2 hc
      split at h
      · simp at h
        rw [← h.1, ← h.2]
        rfl
      · split at h
        · exact absurd h (by simp)
        · rename_i tr2 rf2 hg
          simp at h
          rw [h.2] at hg
          have hlast := ih _ _ _ _ hg
          rw [← h.1]
          cases htr2 : tr2 with
          | nil => rw [htr2] at hlast; exact absurd hlast (by simp)
          | cons b l =>
            rw [htr2] at hlast
            rw [List.getLast?_cons_cons]
            exact hlast

/-- Once an instance exists, `getInstance` returns it and leaves the state
unchanged (no further construction). -/
theorem getInstance_of_some (s : SingState) (g : Nat) (h : s.inst = some g) :
    getInstance s = (g, s) := by
  rw [getInstance, h]

/-- Repeated calls after an instance exists keep returning it, never
constructing again. -/
theorem getInstanceN_of_some (n : Nat) (s : SingState) (g : Nat)
    (h : s.inst = some g) :
    getInstanceN n s = (List.replicate n g, s) := by
  induction n with
  | zero => rfl
  | succ k ih =>
    rw [getInstanceN, getInstance_of_some s g h]
    simp [ih, List.replicate_succ]

/-- Claim C1: the claim says one sweep pass removes exactly the sole-owned
entries, leaves every externally owned entry untouched and in order, and
completes.  On the code this fails: with registry `[⟨0,0,0⟩, ⟨1,1,1⟩]` (a
sole-owned entry followed by an externally owned one) the pass releases the
first entry and then, because the loop never advances the iterator on a
non-eviction, re-tests the second entry forever — the pass never completes
for any number of loop iterations. -/
theorem collect_pass_never_completes :
    (∀ n, (collectD n [⟨0, 0, 0⟩, ⟨1, 1, 1⟩]).2 = none) ∧
    (collectD 2 [⟨0, 0, 0⟩, ⟨1, 1, 1⟩]).1 = [⟨0, 0, 0⟩] := by
  constructor
  · intro n
    cases n with
    | zero => rfl
    | succ k =>
      have hstep : (collectD (k + 1) [⟨0, 0, 0⟩, ⟨1, 1, 1⟩]).2
          = (collectD k [⟨1, 1, 1⟩]).2 := by
        rw [collectD, if_pos rfl]
      rw [hstep]
      exact collectD_stuck k ⟨1, 1, 1⟩ [] (by decide)
  · rfl

/-- Claim C2: the claim says a sweep pass always terminates, including when
the registry contains externally owned entries.  On the code this fails: on
the registry `[⟨2, 7, 1⟩]` (one entry with one external owner) the loop
re-tests the same entry forever, so no number of loop iterations completes
the pass. -/
theorem collect_diverges_on_external_entry :
    ∀ n, (collectD n [⟨2, 7, 1⟩]).2 = none :=
  fun n => collectD_stuck n ⟨2, 7, 1⟩ [] (by decide)

/-- Claim C4: no sweep ever destructs an externally owned entry or removes
its registry slot: every entry in the destruction trace of any (partial or
complete) run of the `collect` loop was sole-owned by the registry, and a
completed pass keeps every externally owned entry in the final registry. -/
theorem collect_never_reclaims_externally_owned (n : Nat) (reg : List Entry) :
    (∀ d ∈ (collectD n reg).1, d.ext = 0) ∧
    (∀ rf, (collectD n reg).2 = some rf → ∀ e ∈ reg, e.ext ≠ 0 → e ∈ rf) := by
  constructor
  · induction n generalizing reg with
    | zero => intro d hd; simp [collectD] at hd
    | succ k ih =>
      cases reg with
      | nil => intro d hd; simp [collectD] at hd
      | cons e rest =>
        intro d hd
        by_cases he : e.ext = 0
        · rw [collectD, if_pos he] at hd
          replace hd : d ∈ e :: (collectD k rest).1 := hd
          rcases List.mem_cons.mp hd with hx | hx
          · rw [hx]; exact he
          · exact ih rest d hx
        · rw [collectD, if_neg he] at hd
          exact ih (e :: rest) d hd
  · intro rf hrf e he hext
    exact absurd (collectD_some_all_unique n reg rf hrf e he) hext

/-- Witness for claim C4 at the concrete run `collectD 2 [⟨0,0,0⟩]`, whose
destruction trace is `[⟨0,0,0⟩]`. -/
theorem collect_never_reclaims_externally_owned_w :
    (Entry.mk 0 0 0).ext = 0 :=
  (collect_never_reclaims_externally_owned 2 [Entry.mk 0 0 0]).1
    (Entry.mk 0 0 0) (by decide)

/-- Claim C7: sweep is idempotent — whenever a first sweep pass completes
with registry `r1`, a second pass run on `r1` completes and returns `r1`
again (a completed pass leaves the empty registry, on which a further pass
is a no-op). -/
theorem collect_idempotent (reg r1 : List Entry)
    (h : collectRun reg = some r1) : collectRun r1 = some r1 := by
  rw [collectRun_some_nil reg r1 h]
  rfl

/-- Witness for claim C7: the sweep of `[⟨0,0,0⟩]` completes with `[]`, and
the second sweep returns `[]` again. -/
theorem collect_idempotent_w : collectRun [] = some [] :=
  collect_idempotent [Entry.mk 0 0 0] [] rfl

/-- Claim C3: whenever `runtime` returns, every object whose last external
owner was released before the stop signal (its entry's `ext` is `0` at the
final sweeps) has had its registry entry evicted: no such entry survives in
the final registry. -/
theorem runtime_reclaims_released (code c : Int) (obs : Nat → Bool)
    (news : Nat → List Entry) (reg rf : List Entry) (n : Nat) (e : Entry)
    (hrun : runtimeFull code obs news reg n = some (c, rf))
    (he : e ∈ reg) (hext : e.ext = 0) : e ∉ rf := by
  rw [runtimeFull] at hrun
  cases hg : gcLoop n obs news reg with
  | none => rw [hg] at hrun; exact absurd hrun (by simp)
  | some p =>
    rw [hg] at hrun
    simp at hrun
    have hnil := gcLoop_final_nil n obs news reg p.1 p.2 hg
    rw [← hrun.2, hnil]
    simp

/-- Witness for claim C3: a run over the registry `[⟨0, 5, 0⟩]` (object 5
fully released) returns with the entry evicted. -/
theorem runtime_reclaims_released_w : Entry.mk 0 5 0 ∉ ([] : List Entry) :=
  runtime_reclaims_released 0 0 (fun _ => true) (fun _ => []) [⟨0, 5, 0⟩] [] 1
    (Entry.mk 0 5 0) rfl (by decide) rfl

/-- Claim C5: whenever `runtime` returns, the sweep loop's trace ends with an
iteration that observed the stop signal and whose sweep ran to completion,
producing the final registry handed back before `runtime` returns — i.e. at
least one full sweep happens after stop is signalled and before the loop
exits, and that final sweep completes before `runtime` returns. -/
theorem runtime_final_sweep_after_stop (code c : Int) (obs : Nat → Bool)
    (news : Nat → List Entry) (reg rf rf2 : List Entry) (n : Nat)
    (tr : List (Bool × List Entry))
    (hrun : runtimeFull code obs news reg n = some (c, rf))
    (hloop : gcLoop n obs news reg = some (tr, rf2)) :
    rf2 = rf ∧ tr.getLast? = some (true, rf) := by
  rw [runtimeFull, hloop] at hrun
  simp at hrun
  refine ⟨hrun.2, ?_⟩
  rw [← hrun.2]
  exact gcLoop_last_stop n obs news reg tr rf2 hloop

/-- Witness for claim C5 at a concrete one-iteration run whose only
iteration observes the stop signal and sweeps the empty registry. -/
theorem runtime_final_sweep_after_stop_w :
    ([] : List Entry) = [] ∧
      ([((true : Bool), ([] : List Entry))]).getLast? = some (true, []) :=
  runtime_final_sweep_after_stop 5 5 (fun _ => true) (fun _ => []) [] [] [] 1
    [(true, [])] rfl rfl

/-- Claim C8: the claim says `runtime` returns the work's integer status
unchanged.  On the code this fails whenever an entry is still externally
owned at a sweep: with the work returning `7` and leaving the registry
`[⟨3, 9, 1⟩]` (one live external handle), the final sweep never terminates,
the join never completes, and `runtime` never returns — for any number of
loop iterations the run produces no result at all. -/
theorem runtime_never_returns_live_handle :
    ∀ n, runtimeFull 7 (fun _ => true) (fun _ => []) [⟨3, 9, 1⟩] n = none := by
  intro n
  cases n with
  | zero => rfl
  | succ k => rfl

/-- Claim C6: `alloc` appends exactly one entry for the object at the end of
the registry, returns a handle sharing ownership with exactly that entry
(the fresh group id), the new entry occurs exactly once in the registry, and
freshness of group ids is preserved for future allocations. -/
theorem alloc_appends_exactly_once (s : AllocState) (p : Nat)
    (hinv : ∀ e ∈ s.reg, e.oid < s.next) :
    (alloc s p).2.reg = s.reg ++ [⟨s.next, p, 1⟩] ∧
    (alloc s p).1 = s.next ∧
    (alloc s p).2.reg.countP (fun e => e.oid == (alloc s p).1) = 1 ∧
    (∀ e ∈ (alloc s p).2.reg, e.oid < (alloc s p).2.next) := by
  refine ⟨rfl, rfl, ?_, ?_⟩
  · show (s.reg ++ [(⟨s.next, p, 1⟩ : Entry)]).countP
        (fun e => e.oid == s.next) = 1
    rw [List.countP_append]
    have h0 : s.reg.countP (fun e => e.oid == s.next) = 0 := by
      rw [List.countP_eq_zero]
      intro e he
      simp only [beq_iff_eq]
      exact Nat.ne_of_lt (hinv e he)
    rw [h0]
    simp [List.countP_cons]
  · intro e he
    show e.oid < s.next + 1
    rcases List.mem_append.mp he with h | h
    · exact Nat.lt_succ_of_lt (hinv e h)
    · have hx := List.mem_singleton.mp h
      rw [hx]
      exact Nat.lt_succ_self _

/-- Witness for claim C6 at the empty allocation state and raw object 42. -/
theorem alloc_appends_exactly_once_w :
    (alloc ⟨[], 0⟩ 42).2.reg = [] ++ [Entry.mk 0 42 1] :=
  (alloc_appends_exactly_once ⟨[], 0⟩ 42 (by simp)).1

/-- Claim C10: registering the same raw object twice creates two distinct
registry entries backed by independent ownership groups (distinct group
ids), nothing deduplicates them (the count of entries for that raw object
grows by two), and each group's teardown releases the underlying object
separately (a sweep of both groups, once sole-owned, records two distinct
release events for the same raw object). -/
theorem alloc_same_raw_twice_independent (s : AllocState) (p : Nat) :
    (alloc (alloc s p).2 p).1 ≠ (alloc s p).1 ∧
    (alloc (alloc s p).2 p).2.reg
      = s.reg ++ [⟨s.next, p, 1⟩, ⟨s.next + 1, p, 1⟩] ∧
    (alloc (alloc s p).2 p).2.reg.countP (fun e => e.raw == p)
      = s.reg.countP (fun e => e.raw == p) + 2 ∧
    (collectD 3 [⟨s.next, p, 0⟩, ⟨s.next + 1, p, 0⟩]).1
      = [⟨s.next, p, 0⟩, ⟨s.next + 1, p, 0⟩] := by
  refine ⟨by simp [alloc], ?_, ?_, ?_⟩
  · show (s.reg ++ [(⟨s.next, p, 1⟩ : Entry)]) ++ [⟨s.next + 1, p, 1⟩] = _
    simp
  · show ((s.reg ++ [(⟨s.next, p, 1⟩ : Entry)])
          ++ [(⟨s.next + 1, p, 1⟩ : Entry)]).countP
        (fun e : Entry => e.raw == p) = _
    rw [List.countP_append, List.countP_append]
    simp [List.countP_cons]
  · simp [collectD]

/-- Claim C9: starting from the unconstructed singleton state, any number of
`getInstance` calls all return the same single instance; the constructor
runs exactly once when there is at least one call (and not at all with
none), and no call after the first constructs again. -/
theorem getInstance_constructs_once (n c : Nat) :
    getInstanceN n ⟨none, c⟩
      = (List.replicate n c, if n = 0 then ⟨none, c⟩ else ⟨some c, c + 1⟩) := by
  cases n with
  | zero => rfl
  | succ k =>
    rw [getInstanceN]
    have h1 : getInstance ⟨none, c⟩ = (c, ⟨some c, c + 1⟩) := rfl
    rw [h1]
    rw [getInstanceN_of_some k ⟨some c, c + 1⟩ c rfl]
    simp [List.replicate_succ]
